import Mathlib

/-!
Verification of the GCS Node Manager (`src/ray/gcs/gcs_server/gcs_node_manager.cc`).

The node manager is a single-threaded state machine over four in-memory
containers (`alive_nodes_`, `dead_nodes_`, the node-id/address bimap
`node_map_`, and `sorted_dead_node_list_`).  All asynchronous collaborators
(durable `NodeTable`, the publisher, the raylet client pool, listeners) are
modelled as an effect trace: each operation returns the successor state
together with the list of outbound calls it makes, in the order the
single serialization domain performs them.  Completion callbacks of the
durable writes are inlined at the point where the event loop would run them
(each operation's callback chain is deterministic, so the interleaving
within one operation is fixed); all durable writes are assumed to complete
with `Status::OK` — a failed write is fatal to the process (`RAY_CHECK_OK`).
-/

namespace GcsVerify

/-- State of a node record: `rpc::GcsNodeInfo::GcsNodeState` (ALIVE or DEAD). -/
inductive GcsNodeState
  | ALIVE
  | DEAD
deriving DecidableEq, Repr

/-- Death reason: `rpc::NodeDeathInfo::Reason`. -/
inductive NodeDeathReason
  | UNSPECIFIED
  | EXPECTED_TERMINATION
  | UNEXPECTED_TERMINATION
  | AUTOSCALER_DRAIN
deriving DecidableEq, Repr

/-- Drain sub-reason: `rpc::autoscaler::DrainNodeReason`. -/
inductive DrainNodeReason
  | DRAIN_NODE_REASON_UNSPECIFIED
  | DRAIN_NODE_REASON_PREEMPTION
  | DRAIN_NODE_REASON_IDLE
deriving DecidableEq, Repr

/-- The `death_info` submessage of a node record. -/
structure NodeDeathInfo where
  reason : NodeDeathReason := .UNSPECIFIED
  drain_reason : DrainNodeReason := .DRAIN_NODE_REASON_UNSPECIFIED
deriving DecidableEq, Repr

/-- A node record (`rpc::GcsNodeInfo`).  Node ids are opaque unique
identifiers; we model them as `Nat`.  Field defaults are the proto
defaults (used to build the delta records published on death). -/
structure GcsNodeInfo where
  node_id : Nat
  node_manager_address : String := ""
  node_manager_port : Nat := 0
  node_name : String := ""
  is_head_node : Bool := false
  state : GcsNodeState := .ALIVE
  start_time_ms : Int := 0
  end_time_ms : Int := 0
  death_info : NodeDeathInfo := {}
deriving DecidableEq, Repr

/-- In-memory state of `GcsNodeManager`.  The C++ hash maps are modelled as
association lists with unique keys; the boost bimap `node_map_` is a list of
(node-id, "ip:port") pairs unique on both components. -/
structure GcsNodeManager where
  alive_nodes : List (Nat × GcsNodeInfo) := []
  dead_nodes : List (Nat × GcsNodeInfo) := []
  node_map : List (Nat × String) := []
  sorted_dead_node_list : List (Nat × Int) := []
deriving DecidableEq, Repr

/-- Outbound calls made by the node manager, in program order.
`tablePut`/`tableDelete` target the durable `NodeTable`;
`publishNodeInfo` is the node-info channel, `publishError` the
driver error channel; `shutdownRaylet`/`notifyGcsRestart` are raylet
RPCs; the listener constructors record synchronous listener invocations;
`statusCallbackOK` records a user-supplied `StatusCallback` being invoked
with `Status::OK`; `fatalCheckFailed` records a failed `RAY_CHECK`
(the process aborts at that point, so nothing follows it). -/
inductive Effect
  | tablePut (node_id : Nat) (info : GcsNodeInfo)
  | tableDelete (node_id : Nat)
  | publishNodeInfo (node_id : Nat) (info : GcsNodeInfo)
  | publishError (node_id : Nat)
  | shutdownRaylet (node_id : Nat) (graceful : Bool)
  | notifyGcsRestart (node_id : Nat)
  | nodeAddedListener (info : GcsNodeInfo)
  | nodeRemovedListener (info : GcsNodeInfo)
  | statusCallbackOK
  | fatalCheckFailed
deriving DecidableEq, Repr

/-- Lookup in an association list (hash-map `find`). -/
def lookupKey {α : Type} (l : List (Nat × α)) (k : Nat) : Option α :=
  match l with
  | [] => none
  | (k', v) :: t => if k' = k then some v else lookupKey t k

/-- Erase the entry with the given key (hash-map `erase`; removes the first
occurrence, which is the only one when keys are unique). -/
def eraseKey {α : Type} (l : List (Nat × α)) (k : Nat) : List (Nat × α) :=
  match l with
  | [] => []
  | (k', v) :: t => if k' = k then t else (k', v) :: eraseKey t k

/-- Hash-map `emplace`: inserts only when the key is not yet present. -/
def emplaceKey {α : Type} (l : List (Nat × α)) (k : Nat) (v : α) : List (Nat × α) :=
  match lookupKey l k with
  | some _ => l
  | none => l ++ [(k, v)]

/-- Reverse lookup in the bimap (`node_map_.right.find`). -/
def findIdByAddr (l : List (Nat × String)) (addr : String) : Option Nat :=
  match l with
  | [] => none
  | (k, a) :: t => if a = addr then some k else findIdByAddr t addr

/-- Boost bimap insertion: a no-op when either the key or the value is
already present on its side. -/
def bimapInsert (l : List (Nat × String)) (k : Nat) (a : String) : List (Nat × String) :=
  if l.any (fun p => p.1 = k || p.2 = a) then l else l ++ [(k, a)]

/-- The "ip:port" string under which a node is indexed in `node_map_`. -/
def nodeAddr (node : GcsNodeInfo) : String :=
  node.node_manager_address ++ ":" ++ toString node.node_manager_port

/-- Node ids currently in the Live-Set. -/
def aliveKeys (s : GcsNodeManager) : List Nat :=
  s.alive_nodes.map (·.1)

/-- Node ids currently in the Dead-Set. -/
def deadKeys (s : GcsNodeManager) : List Nat :=
  s.dead_nodes.map (·.1)

/-- Model of `GcsNodeManager::AddNode`: when the node id is not yet alive,
insert the (id, address) pair into the bimap, insert the record into
`alive_nodes_`, and fire the added-listeners. -/
def addNode (s : GcsNodeManager) (node : GcsNodeInfo) : GcsNodeManager × List Effect :=
  match lookupKey s.alive_nodes node.node_id with
  | some _ => (s, [])
  | none =>
      ({ s with
          node_map := bimapInsert s.node_map node.node_id (nodeAddr node),
          alive_nodes := s.alive_nodes ++ [(node.node_id, node)] },
       [.nodeAddedListener node])

/-- Model of `GcsNodeManager::RemoveNode`: erase from `alive_nodes_` and
from the bimap; when the removal is unintended, publish a node-removed
error to drivers; fire the removed-listeners.  Returns the removed record
(`nullptr`, i.e. `none`, when the node was not alive). -/
def removeNode (s : GcsNodeManager) (node_id : Nat) (is_intended : Bool) :
    GcsNodeManager × List Effect × Option GcsNodeInfo :=
  match lookupKey s.alive_nodes node_id with
  | none => (s, [], none)
  | some node =>
      ({ s with
          alive_nodes := eraseKey s.alive_nodes node_id,
          node_map := eraseKey s.node_map node_id },
       (if is_intended then [] else [.publishError node_id]) ++ [.nodeRemovedListener node],
       some node)

/-- Model of `GcsNodeManager::AddDeadNodeToCache` with capacity
`cfg = RayConfig::maximum_gcs_dead_node_cached_count()`.  When the Dead-Set
is at capacity, the front of `sorted_dead_node_list_` is evicted: its
durable row is deleted fire-and-forget and it is erased from both
containers; then the new entry is appended.  (When the guard fires with an
empty order list — only possible for `cfg = 0`, excluded by configuration —
the C++ dereferences the begin iterator of an empty list, which is
undefined; we model that unreachable branch as skipping the eviction.) -/
def addDeadNodeToCache (cfg : Nat) (s : GcsNodeManager) (node : GcsNodeInfo) :
    GcsNodeManager × List Effect :=
  let evicted : GcsNodeManager × List Effect :=
    if cfg ≤ s.dead_nodes.length then
      match s.sorted_dead_node_list with
      | [] => (s, [])
      | victim :: rest =>
          ({ s with
              dead_nodes := eraseKey s.dead_nodes victim.1,
              sorted_dead_node_list := rest },
           [.tableDelete victim.1])
    else (s, [])
  let s' := evicted.1
  ({ s' with
      dead_nodes := emplaceKey s'.dead_nodes node.node_id node,
      sorted_dead_node_list := s'.sorted_dead_node_list ++ [(node.node_id, node.end_time_ms)] },
   evicted.2)

/-- The delta record published on the node-info channel after a death
transition: only `node_id`, `state` and `end_time_ms` are set. -/
def deadNodeInfoDelta (node : GcsNodeInfo) : GcsNodeInfo :=
  { node_id := node.node_id, state := node.state, end_time_ms := node.end_time_ms }

/-- The mutation `OnNodeFailure` applies to the removed record: state DEAD,
end time stamped; the death reason becomes UNEXPECTED_TERMINATION when it
was UNSPECIFIED (a drain in progress already stamped AUTOSCALER_DRAIN) and
is otherwise left unchanged. -/
def markDeadOnFailure (node : GcsNodeInfo) (now : Int) : GcsNodeInfo :=
  let node' : GcsNodeInfo := { node with state := .DEAD, end_time_ms := now }
  if node'.death_info.reason = .UNSPECIFIED then
    { node' with death_info := { node'.death_info with reason := .UNEXPECTED_TERMINATION } }
  else node'

/-- Model of `GcsNodeManager::OnNodeFailure`.  `has_callback` records
whether a (non-null) `node_table_updated_callback` was supplied; it is
invoked with OK after the durable write completes and before the delta is
published, or immediately when the node is not alive. -/
def onNodeFailure (cfg : Nat) (s : GcsNodeManager) (node_id : Nat) (now : Int)
    (has_callback : Bool) : GcsNodeManager × List Effect :=
  match removeNode s node_id false with
  | (s', effs, some node) =>
      let node' := markDeadOnFailure node now
      let cached := addDeadNodeToCache cfg s' node'
      (cached.1,
       effs ++ cached.2 ++ [.tablePut node_id node']
            ++ (if has_callback then [.statusCallbackOK] else [])
            ++ [.publishNodeInfo node_id (deadNodeInfoDelta node')])
  | (s', effs, none) =>
      (s', effs ++ (if has_callback then [.statusCallbackOK] else []))

/-- Model of `GcsNodeManager::DrainNode`.  A node that is not alive is a
silent no-op.  Otherwise the record is marked DEAD, cached, checked to
carry `AUTOSCALER_DRAIN` (a failing `RAY_CHECK_EQ` aborts the process, so
the durable write, the graceful `ShutdownRaylet` RPC and the delta publish
that normally follow are not reached), durably written, and on completion
the raylet is shut down gracefully and the delta is published once the
shutdown RPC replies (with any status). -/
def drainNode (cfg : Nat) (s : GcsNodeManager) (node_id : Nat) (now : Int) :
    GcsNodeManager × List Effect :=
  match removeNode s node_id true with
  | (s', effs, none) => (s', effs)
  | (s', effs, some node) =>
      let node' : GcsNodeInfo := { node with state := .DEAD, end_time_ms := now }
      let cached := addDeadNodeToCache cfg s' node'
      if node'.death_info.reason = .AUTOSCALER_DRAIN then
        (cached.1,
         effs ++ cached.2 ++ [.tablePut node_id node',
              .shutdownRaylet node_id true,
              .publishNodeInfo node_id (deadNodeInfoDelta node')])
      else
        (cached.1, effs ++ cached.2 ++ [.fatalCheckFailed])

/-- Model of `GcsNodeManager::HandleRegisterNode`.  For a head-node
registration the Live-Set is scanned for an existing head; if exactly one
is found, `OnNodeFailure` is synthesized on it and the durable write of the
new record is chained into its completion callback (so the old head's delta
publish, queued behind the chained write's submission, precedes the new
record's publish).  On completion of the new record's durable write the
full record is published and `AddNode` runs. -/
def handleRegisterNode (cfg : Nat) (s : GcsNodeManager) (info : GcsNodeInfo) (now : Int) :
    GcsNodeManager × List Effect :=
  let finishRegistration : GcsNodeManager → GcsNodeManager × List Effect := fun st =>
    let added := addNode st info
    (added.1, [.publishNodeInfo info.node_id info] ++ added.2)
  if info.is_head_node then
    match (s.alive_nodes.filter (fun p => p.2.is_head_node)).map (fun p => p.1) with
    | [head_id] =>
        match removeNode s head_id false with
        | (s1, effs1, some node) =>
            let node' := markDeadOnFailure node now
            let cached := addDeadNodeToCache cfg s1 node'
            let fin := finishRegistration cached.1
            (fin.1,
             effs1 ++ cached.2
                  ++ [.tablePut head_id node', .tablePut info.node_id info,
                      .publishNodeInfo head_id (deadNodeInfoDelta node')]
                  ++ fin.2)
        | (s1, effs1, none) =>
            -- unreachable: head_id was just found in alive_nodes_
            let fin := finishRegistration s1
            (fin.1, effs1 ++ [.tablePut info.node_id info] ++ fin.2)
    | _ =>
        let fin := finishRegistration s
        (fin.1, [.tablePut info.node_id info] ++ fin.2)
  else
    let fin := finishRegistration s
    (fin.1, [.tablePut info.node_id info] ++ fin.2)

/-- Model of `GcsNodeManager::HandleDrainNode`: drains each requested id in
order and adds one `drain_node_status` entry carrying that id to the reply;
the reply is always sent with `Status::OK` (returned as the final `Bool`). -/
def handleDrainNode (cfg : Nat) (s : GcsNodeManager) (ids : List Nat) (now : Int) :
    GcsNodeManager × List Effect × List Nat × Bool :=
  match ids with
  | [] => (s, [], [], true)
  | id :: rest =>
      let one := drainNode cfg s id now
      let res := handleDrainNode cfg one.1 rest now
      (res.1, one.2 ++ res.2.1, id :: res.2.2.1, true)

/-- Model of `GcsNodeManager::GetDeadNode`: Dead-Set first, then the
Live-Set (an alive node yields `nullopt`), finally a synchronous fetch from
the durable `NodeTable` (the `storage` parameter). -/
def getDeadNode (s : GcsNodeManager) (storage : List (Nat × GcsNodeInfo)) (node_id : Nat) :
    Option GcsNodeInfo :=
  match lookupKey s.dead_nodes node_id with
  | some n => some n
  | none =>
      match lookupKey s.alive_nodes node_id with
      | some _ => none
      | none => lookupKey storage node_id

/-- Model of `GcsNodeManager::IsNodePreempted`. -/
def isNodePreempted (s : GcsNodeManager) (storage : List (Nat × GcsNodeInfo))
    (raylet_addr : String) : Bool :=
  match findIdByAddr s.node_map raylet_addr with
  | none => false
  | some id =>
      match getDeadNode s storage id with
      | none => false
      | some node =>
          node.death_info.reason = NodeDeathReason.AUTOSCALER_DRAIN &&
          node.death_info.drain_reason = DrainNodeReason.DRAIN_NODE_REASON_PREEMPTION

/-- Model of `GcsNodeManager::HandleCheckAlive`: positional `raylet_alive`
and `raylet_preempted` arrays. -/
def handleCheckAlive (s : GcsNodeManager) (storage : List (Nat × GcsNodeInfo))
    (addrs : List String) : List Bool × List Bool :=
  (addrs.map (fun a => (findIdByAddr s.node_map a).isSome),
   addrs.map (fun a => !(findIdByAddr s.node_map a).isSome && isNodePreempted s storage a))

/-- Model of `GcsNodeManager::HandleGetAllNodeInfo`: alive records followed
by dead records. -/
def getAllNodeInfo (s : GcsNodeManager) : List GcsNodeInfo :=
  s.alive_nodes.map (·.2) ++ s.dead_nodes.map (·.2)

/-- Stable insertion (ascending in the time component, strict comparison as
in the C++ comparator `left.second < right.second`). -/
def insertByTime (p : Nat × Int) : List (Nat × Int) → List (Nat × Int)
  | [] => [p]
  | q :: t => if q.2 < p.2 then q :: insertByTime p t else p :: q :: t

/-- Stable sort of the dead-node order list by end time ascending, the
result `std::list::sort` produces with comparator
`left.second < right.second`. -/
def sortDeadList : List (Nat × Int) → List (Nat × Int)
  | [] => []
  | p :: t => insertByTime p (sortDeadList t)

/-- One iteration of the `Initialize` loop over the durable snapshot:
ALIVE records go through `AddNode` and trigger a `NotifyGCSRestart` RPC to
the node's raylet; DEAD records are emplaced into `dead_nodes_` (keyed by
the snapshot key) and appended to the order list. -/
def initStep (s : GcsNodeManager) (p : Nat × GcsNodeInfo) : GcsNodeManager × List Effect :=
  match p.2.state with
  | .ALIVE =>
      let added := addNode s p.2
      (added.1, added.2 ++ [.notifyGcsRestart p.2.node_id])
  | .DEAD =>
      ({ s with
          dead_nodes := emplaceKey s.dead_nodes p.1 p.2,
          sorted_dead_node_list := s.sorted_dead_node_list ++ [(p.1, p.2.end_time_ms)] },
       [])

/-- The `Initialize` loop over the snapshot entries, in order. -/
def initLoop (s : GcsNodeManager) (nodes : List (Nat × GcsNodeInfo)) :
    GcsNodeManager × List Effect :=
  match nodes with
  | [] => (s, [])
  | p :: rest =>
      let one := initStep s p
      let res := initLoop one.1 rest
      (res.1, one.2 ++ res.2)

/-- Model of `GcsNodeManager::Initialize`: starting from the empty state,
process every snapshot record, then sort the order list by end time
ascending. -/
def initNodeManager (nodes : List (Nat × GcsNodeInfo)) : GcsNodeManager × List Effect :=
  let res := initLoop {} nodes
  ({ res.1 with sorted_dead_node_list := sortDeadList res.1.sorted_dead_node_list }, res.2)

/-- The three state invariants named by the specification: Live/Dead
disjointness, the dead-cache bound, and a sorted order list whose multiset
of ids matches the Dead-Set keys. -/
abbrev ClaimInvariant (cfg : Nat) (s : GcsNodeManager) : Prop :=
  (∀ id ∈ aliveKeys s, id ∉ deadKeys s) ∧
  s.dead_nodes.length ≤ cfg ∧
  (s.sorted_dead_node_list.map (·.2)).Sorted (· ≤ ·) ∧
  (s.sorted_dead_node_list.map (·.1)).Perm (deadKeys s)

/-- The inductive invariant: the claims' three invariants strengthened with
key uniqueness of both hash maps and the fact that every Live-Set entry is
keyed by its record's node id (which is how `AddNode` inserts). -/
abbrev Inv (cfg : Nat) (s : GcsNodeManager) : Prop :=
  (aliveKeys s).Nodup ∧ (deadKeys s).Nodup ∧
  (∀ p ∈ s.alive_nodes, p.1 = p.2.node_id) ∧ ClaimInvariant cfg s

/-- All recorded end times are at most `now`: the wall clock
(`current_sys_time_ms`) is assumed non-decreasing, so the next stamped time
dominates every time already in the order list. -/
abbrev timeLE (s : GcsNodeManager) (now : Int) : Prop :=
  ∀ p ∈ s.sorted_dead_node_list, p.2 ≤ now

/-! ### Association-list lemmas -/

theorem lookupKey_eq_none {α : Type} {l : List (Nat × α)} {k : Nat} :
    lookupKey l k = none ↔ k ∉ l.map (·.1) := by
  induction l with
  | nil => simp [lookupKey]
  | cons p t ih =>
      obtain ⟨k', v⟩ := p
      by_cases h : k' = k <;> simp [lookupKey, h, ih, Ne.symm]

theorem lookupKey_isSome {α : Type} {l : List (Nat × α)} {k : Nat} :
    (lookupKey l k).isSome ↔ k ∈ l.map (·.1) := by
  induction l with
  | nil => simp [lookupKey]
  | cons p t ih =>
      obtain ⟨k', v⟩ := p
      by_cases h : k' = k <;> simp [lookupKey, h, ih, Ne.symm]

theorem mem_of_lookupKey_eq_some {α : Type} {l : List (Nat × α)} {k : Nat} {v : α}
    (h : lookupKey l k = some v) : k ∈ l.map (·.1) := by
  rw [← lookupKey_isSome, h]; rfl

theorem lookupKey_append_last {α : Type} {l : List (Nat × α)} {k : Nat} {v : α}
    (h : k ∉ l.map (·.1)) : lookupKey (l ++ [(k, v)]) k = some v := by
  induction l with
  | nil => simp [lookupKey]
  | cons p t ih =>
      simp only [List.map_cons, List.mem_cons] at h
      push_neg at h
      simpa [lookupKey, Ne.symm h.1] using ih h.2

theorem map_fst_eraseKey {α : Type} (l : List (Nat × α)) (k : Nat) :
    (eraseKey l k).map (·.1) = (l.map (·.1)).erase k := by
  induction l with
  | nil => simp [eraseKey]
  | cons p t ih =>
      obtain ⟨k', v⟩ := p
      by_cases h : k' = k
      · subst h; simp [eraseKey, List.erase_cons_head]
      · simp [eraseKey, h, List.erase_cons_tail, ih, beq_iff_eq]

theorem length_eraseKey_of_mem {α : Type} {l : List (Nat × α)} {k : Nat}
    (h : k ∈ l.map (·.1)) : (eraseKey l k).length + 1 = l.length := by
  have hlen : (eraseKey l k).length = ((l.map (·.1)).erase k).length := by
    rw [← map_fst_eraseKey, List.length_map]
  have hpos : 0 < (l.map (·.1)).length := List.length_pos.2 (List.ne_nil_of_mem h)
  rw [hlen, List.length_erase_of_mem h, ← List.length_map l (·.1)]
  omega

theorem length_eraseKey_le {α : Type} (l : List (Nat × α)) (k : Nat) :
    (eraseKey l k).length ≤ l.length := by
  induction l with
  | nil => simp [eraseKey]
  | cons p t ih =>
      by_cases h : p.1 = k <;> simp [eraseKey, h] <;> omega

theorem emplaceKey_of_not_mem {α : Type} {l : List (Nat × α)} {k : Nat} (v : α)
    (h : k ∉ l.map (·.1)) : emplaceKey l k v = l ++ [(k, v)] := by
  rw [emplaceKey, (lookupKey_eq_none).2 h]

theorem pair_mem_of_lookupKey {α : Type} {l : List (Nat × α)} {k : Nat} {v : α}
    (h : lookupKey l k = some v) : (k, v) ∈ l := by
  induction l with
  | nil => simp [lookupKey] at h
  | cons p t ih =>
      obtain ⟨k', v'⟩ := p
      by_cases hk : k' = k
      · subst hk
        simp only [lookupKey, if_pos rfl] at h
        cases h
        exact List.mem_cons_self _ _
      · simp only [lookupKey, if_neg hk] at h
        exact List.mem_cons_of_mem _ (ih h)

/-! ### Sorting lemmas for the order list -/

theorem insertByTime_perm (p : Nat × Int) (l : List (Nat × Int)) :
    (insertByTime p l).Perm (p :: l) := by
  induction l with
  | nil => simp [insertByTime]
  | cons q t ih =>
      by_cases h : q.2 < p.2
      · have h1 : insertByTime p (q :: t) = q :: insertByTime p t := by
          simp [insertByTime, h]
        rw [h1]
        exact (List.Perm.cons q ih).trans (List.Perm.swap p q t)
      · simp [insertByTime, h]

theorem sortDeadList_perm (l : List (Nat × Int)) : (sortDeadList l).Perm l := by
  induction l with
  | nil => simp [sortDeadList]
  | cons p t ih =>
      exact (insertByTime_perm p (sortDeadList t)).trans (List.Perm.cons p ih)

theorem insertByTime_sorted {p : Nat × Int} {l : List (Nat × Int)}
    (h : (l.map (·.2)).Sorted (· ≤ ·)) :
    ((insertByTime p l).map (·.2)).Sorted (· ≤ ·) := by
  induction l with
  | nil => simp [insertByTime, List.Sorted]
  | cons q t ih =>
      simp only [List.map_cons, List.Sorted, List.pairwise_cons] at h
      by_cases hq : q.2 < p.2
      · have hsort := ih h.2
        simp only [insertByTime, if_pos hq, List.map_cons, List.Sorted, List.pairwise_cons]
        refine ⟨fun b hb => ?_, hsort⟩
        have hb' : b ∈ (p :: t).map (·.2) :=
          ((insertByTime_perm p t).map (·.2)).mem_iff.1 hb
        rcases List.mem_cons.1 hb' with hbp | hbt
        · exact hbp ▸ le_of_lt hq
        · exact h.1 b hbt
      · push_neg at hq
        simp only [insertByTime, if_neg (not_lt.2 hq), List.map_cons, List.Sorted,
          List.pairwise_cons]
        refine ⟨fun b hb => ?_, h.1, h.2⟩
        rcases List.mem_cons.1 hb with hbq | hbt
        · exact hbq ▸ hq
        · exact hq.trans (h.1 b hbt)

theorem sortDeadList_sorted (l : List (Nat × Int)) :
    ((sortDeadList l).map (·.2)).Sorted (· ≤ ·) := by
  induction l with
  | nil => simp [sortDeadList, List.Sorted]
  | cons p t ih => exact insertByTime_sorted ih

/-! ### Field lemmas for the failure mutation -/

theorem markDeadOnFailure_node_id (node : GcsNodeInfo) (now : Int) :
    (markDeadOnFailure node now).node_id = node.node_id := by
  by_cases h : node.death_info.reason = NodeDeathReason.UNSPECIFIED <;>
    simp [markDeadOnFailure, h]

theorem markDeadOnFailure_state (node : GcsNodeInfo) (now : Int) :
    (markDeadOnFailure node now).state = .DEAD := by
  by_cases h : node.death_info.reason = NodeDeathReason.UNSPECIFIED <;>
    simp [markDeadOnFailure, h]

theorem markDeadOnFailure_end_time (node : GcsNodeInfo) (now : Int) :
    (markDeadOnFailure node now).end_time_ms = now := by
  by_cases h : node.death_info.reason = NodeDeathReason.UNSPECIFIED <;>
    simp [markDeadOnFailure, h]

theorem markDeadOnFailure_reason (node : GcsNodeInfo) (now : Int) :
    (markDeadOnFailure node now).death_info.reason =
      (if node.death_info.reason = .UNSPECIFIED then .UNEXPECTED_TERMINATION
       else node.death_info.reason) := by
  by_cases h : node.death_info.reason = NodeDeathReason.UNSPECIFIED <;>
    simp [markDeadOnFailure, h]

theorem markDeadOnFailure_drain_reason (node : GcsNodeInfo) (now : Int) :
    (markDeadOnFailure node now).death_info.drain_reason = node.death_info.drain_reason := by
  by_cases h : node.death_info.reason = NodeDeathReason.UNSPECIFIED <;>
    simp [markDeadOnFailure, h]

/-! ### Characterization and invariant lemmas for the building blocks -/

theorem mem_of_mem_eraseKey {α : Type} {l : List (Nat × α)} {k : Nat} {q : Nat × α}
    (h : q ∈ eraseKey l k) : q ∈ l := by
  induction l with
  | nil => simpa [eraseKey] using h
  | cons p t ih =>
      by_cases hp : p.1 = k
      · obtain ⟨k', v⟩ := p
        simp only [eraseKey, if_pos hp] at h
        exact List.mem_cons_of_mem _ h
      · obtain ⟨k', v⟩ := p
        simp only [eraseKey, if_neg hp] at h
        rcases List.mem_cons.1 h with h | h
        · exact h ▸ List.mem_cons_self _ _
        · exact List.mem_cons_of_mem _ (ih h)

theorem removeNode_not_alive {s : GcsNodeManager} {id : Nat} {b : Bool}
    (h : lookupKey s.alive_nodes id = none) : removeNode s id b = (s, [], none) := by
  simp [removeNode, h]

theorem removeNode_alive {s : GcsNodeManager} {id : Nat} {b : Bool} {node : GcsNodeInfo}
    (h : lookupKey s.alive_nodes id = some node) :
    removeNode s id b =
      ({ s with alive_nodes := eraseKey s.alive_nodes id, node_map := eraseKey s.node_map id },
       (if b then [] else [Effect.publishError id]) ++ [Effect.nodeRemovedListener node],
       some node) := by
  simp [removeNode, h]

theorem inv_eraseAlive {cfg : Nat} {s : GcsNodeManager} (id : Nat) (hInv : Inv cfg s) :
    Inv cfg { s with alive_nodes := eraseKey s.alive_nodes id,
                     node_map := eraseKey s.node_map id } ∧
    id ∉ (eraseKey s.alive_nodes id).map (·.1) := by
  simp only [Inv, ClaimInvariant] at hInv ⊢
  obtain ⟨hAN, hDN, hC, hDis, hB, hS, hP⟩ := hInv
  have hak : (eraseKey s.alive_nodes id).map (·.1) = (aliveKeys s).erase id :=
    map_fst_eraseKey s.alive_nodes id
  have hsub : ∀ a, a ∈ (eraseKey s.alive_nodes id).map (·.1) → a ∈ aliveKeys s := by
    intro a ha
    rw [hak] at ha
    exact List.mem_of_mem_erase ha
  refine ⟨⟨?_, hDN, ?_, ?_, hB, hS, hP⟩, ?_⟩
  · show ((eraseKey s.alive_nodes id).map (·.1)).Nodup
    rw [hak]
    exact hAN.erase id
  · intro p hp
    exact hC p (mem_of_mem_eraseKey hp)
  · intro a ha
    exact hDis a (hsub a ha)
  · rw [hak]
    exact hAN.not_mem_erase


theorem addDead_no_evict {cfg : Nat} {s : GcsNodeManager} {node : GcsNodeInfo}
    (h : s.dead_nodes.length < cfg) (hD : node.node_id ∉ deadKeys s) :
    addDeadNodeToCache cfg s node =
      ({ s with dead_nodes := s.dead_nodes ++ [(node.node_id, node)],
                sorted_dead_node_list :=
                  s.sorted_dead_node_list ++ [(node.node_id, node.end_time_ms)] },
       []) := by
  have h' : ¬ cfg ≤ s.dead_nodes.length := by omega
  simp only [deadKeys] at hD
  simp [addDeadNodeToCache, h', emplaceKey_of_not_mem _ hD]

theorem addDead_evict {cfg : Nat} {s : GcsNodeManager} {node : GcsNodeInfo}
    {v : Nat × Int} {rest : List (Nat × Int)}
    (h : cfg ≤ s.dead_nodes.length) (hs : s.sorted_dead_node_list = v :: rest)
    (hD : node.node_id ∉ deadKeys s) :
    addDeadNodeToCache cfg s node =
      ({ s with dead_nodes := eraseKey s.dead_nodes v.1 ++ [(node.node_id, node)],
                sorted_dead_node_list := rest ++ [(node.node_id, node.end_time_ms)] },
       [Effect.tableDelete v.1]) := by
  have hD' : node.node_id ∉ (eraseKey s.dead_nodes v.1).map (·.1) := by
    rw [map_fst_eraseKey]
    intro hmem
    exact hD (List.mem_of_mem_erase hmem)
  simp [addDeadNodeToCache, h, hs, emplaceKey_of_not_mem _ hD']

theorem sorted_list_cons_of_ne_nil {s : GcsNodeManager}
    (hP : (s.sorted_dead_node_list.map (·.1)).Perm (deadKeys s))
    (hne : s.dead_nodes.length ≠ 0) :
    ∃ v rest, s.sorted_dead_node_list = v :: rest := by
  cases hsl : s.sorted_dead_node_list with
  | cons v rest => exact ⟨v, rest, rfl⟩
  | nil =>
      exfalso
      rw [hsl] at hP
      have hdk : deadKeys s = [] := hP.symm.eq_nil
      have : s.dead_nodes = [] := by
        simpa [deadKeys] using hdk
      simp [this] at hne

theorem inv_addDead {cfg : Nat} {s : GcsNodeManager} {node : GcsNodeInfo}
    (hInv : Inv cfg s) (hcfg : 1 ≤ cfg)
    (hA : node.node_id ∉ aliveKeys s) (hD : node.node_id ∉ deadKeys s)
    (hT : timeLE s node.end_time_ms) :
    Inv cfg (addDeadNodeToCache cfg s node).1 := by
  simp only [Inv, ClaimInvariant] at hInv ⊢
  obtain ⟨hAN, hDN, hC, hDis, hB, hS, hP⟩ := hInv
  by_cases h : cfg ≤ s.dead_nodes.length
  · have hlen : s.dead_nodes.length = cfg := le_antisymm hB h
    have hne : s.dead_nodes.length ≠ 0 := by omega
    obtain ⟨v, rest, hsl⟩ := sorted_list_cons_of_ne_nil hP hne
    rw [addDead_evict h hsl hD]
    have hv : v.1 ∈ s.dead_nodes.map (·.1) := by
      have hmem : v.1 ∈ s.sorted_dead_node_list.map (·.1) := by
        rw [hsl]; exact List.mem_cons_self _ _
      exact hP.mem_iff.1 hmem
    have hdkNew : deadKeys { s with
        dead_nodes := eraseKey s.dead_nodes v.1 ++ [(node.node_id, node)],
        sorted_dead_node_list := rest ++ [(node.node_id, node.end_time_ms)] } =
        (s.dead_nodes.map (·.1)).erase v.1 ++ [node.node_id] := by
      simp [deadKeys, map_fst_eraseKey]
    refine ⟨hAN, ?_, ?_, ?_, ?_, ?_, ?_⟩
    · rw [hdkNew]
      rw [List.nodup_append]
      refine ⟨hDN.erase v.1, List.nodup_singleton _, ?_⟩
      intro a ha hb
      rw [List.mem_singleton] at hb
      subst hb
      exact hD (List.mem_of_mem_erase ha)
    · intro p hp
      exact hC p hp
    · intro a ha
      rw [hdkNew, List.mem_append, List.mem_singleton]
      rintro (hmem | hmem)
      · exact hDis a ha (List.mem_of_mem_erase hmem)
      · subst hmem
        exact hA ha
    · show (eraseKey s.dead_nodes v.1 ++ [(node.node_id, node)]).length ≤ cfg
      rw [List.length_append]
      have := length_eraseKey_of_mem hv
      simp only [List.length_singleton]
      omega
    · show ((rest ++ [(node.node_id, node.end_time_ms)]).map (·.2)).Sorted (· ≤ ·)
      rw [List.map_append]
      rw [List.Sorted, List.pairwise_append]
      have hS' : ((v :: rest).map (·.2)).Sorted (· ≤ ·) := by rw [← hsl]; exact hS
      rw [List.map_cons, List.Sorted, List.pairwise_cons] at hS'
      refine ⟨hS'.2, List.pairwise_singleton _ _, ?_⟩
      intro a ha b hb
      rw [List.map_singleton, List.mem_singleton] at hb
      subst hb
      rw [List.mem_map] at ha
      obtain ⟨p, hp, hpa⟩ := ha
      subst hpa
      exact hT p (by rw [hsl]; exact List.mem_cons_of_mem _ hp)
    · show ((rest ++ [(node.node_id, node.end_time_ms)]).map (·.1)).Perm
        (deadKeys { s with
          dead_nodes := eraseKey s.dead_nodes v.1 ++ [(node.node_id, node)],
          sorted_dead_node_list := rest ++ [(node.node_id, node.end_time_ms)] })
      rw [hdkNew, List.map_append, List.map_singleton]
      refine List.Perm.append ?_ (List.Perm.refl _)
      have hP' : ((v :: rest).map (·.1)).Perm (s.dead_nodes.map (·.1)) := by
        rw [← hsl]; exact hP
      have := hP'.erase v.1
      rwa [List.map_cons, List.erase_cons_head] at this
  · have h' : s.dead_nodes.length < cfg := by omega
    rw [addDead_no_evict h' hD]
    have hdkNew : deadKeys { s with
        dead_nodes := s.dead_nodes ++ [(node.node_id, node)],
        sorted_dead_node_list :=
          s.sorted_dead_node_list ++ [(node.node_id, node.end_time_ms)] } =
        s.dead_nodes.map (·.1) ++ [node.node_id] := by
      simp [deadKeys]
    refine ⟨hAN, ?_, ?_, ?_, ?_, ?_, ?_⟩
    · rw [hdkNew, List.nodup_append]
      refine ⟨hDN, List.nodup_singleton _, ?_⟩
      intro a ha hb
      rw [List.mem_singleton] at hb
      subst hb
      exact hD ha
    · intro p hp
      exact hC p hp
    · intro a ha
      rw [hdkNew, List.mem_append, List.mem_singleton]
      rintro (hmem | hmem)
      · exact hDis a ha hmem
      · subst hmem
        exact hA ha
    · show (s.dead_nodes ++ [(node.node_id, node)]).length ≤ cfg
      rw [List.length_append]
      simp only [List.length_singleton]
      omega
    · show ((s.sorted_dead_node_list ++ [(node.node_id, node.end_time_ms)]).map (·.2)).Sorted
        (· ≤ ·)
      rw [List.map_append, List.Sorted, List.pairwise_append]
      refine ⟨hS, List.pairwise_singleton _ _, ?_⟩
      intro a ha b hb
      rw [List.map_singleton, List.mem_singleton] at hb
      subst hb
      rw [List.mem_map] at ha
      obtain ⟨p, hp, hpa⟩ := ha
      subst hpa
      exact hT p hp
    · show ((s.sorted_dead_node_list ++ [(node.node_id, node.end_time_ms)]).map (·.1)).Perm
        (deadKeys { s with
          dead_nodes := s.dead_nodes ++ [(node.node_id, node)],
          sorted_dead_node_list :=
            s.sorted_dead_node_list ++ [(node.node_id, node.end_time_ms)] })
      rw [hdkNew, List.map_append, List.map_singleton]
      exact List.Perm.append hP (List.Perm.refl _)

theorem inv_addNode {cfg : Nat} {s : GcsNodeManager} {node : GcsNodeInfo}
    (hInv : Inv cfg s) (hD : node.node_id ∉ deadKeys s) :
    Inv cfg (addNode s node).1 := by
  cases hl : lookupKey s.alive_nodes node.node_id with
  | some v =>
      simpa [addNode, hl] using hInv
  | none =>
      have hmem : node.node_id ∉ aliveKeys s := lookupKey_eq_none.1 hl
      simp only [addNode, hl]
      simp only [Inv, ClaimInvariant] at hInv ⊢
      obtain ⟨hAN, hDN, hC, hDis, hB, hS, hP⟩ := hInv
      have hakNew : aliveKeys { s with
          node_map := bimapInsert s.node_map node.node_id (nodeAddr node),
          alive_nodes := s.alive_nodes ++ [(node.node_id, node)] } =
          s.alive_nodes.map (·.1) ++ [node.node_id] := by
        simp [aliveKeys]
      refine ⟨?_, hDN, ?_, ?_, hB, hS, hP⟩
      · rw [hakNew, List.nodup_append]
        refine ⟨hAN, List.nodup_singleton _, ?_⟩
        intro a ha hb
        rw [List.mem_singleton] at hb
        subst hb
        exact hmem ha
      · intro p hp
        rw [List.mem_append, List.mem_singleton] at hp
        rcases hp with hp | hp
        · exact hC p hp
        · subst hp
          rfl
      · intro a ha
        rw [hakNew, List.mem_append, List.mem_singleton] at ha
        rcases ha with ha | ha
        · exact hDis a ha
        · subst ha
          exact hD


theorem mem_emplaceKey_fst {α : Type} {l : List (Nat × α)} {k a : Nat} {v : α}
    (h : a ∈ (emplaceKey l k v).map (·.1)) : a ∈ l.map (·.1) ∨ a = k := by
  unfold emplaceKey at h
  cases hl : lookupKey l k <;> rw [hl] at h
  · rw [List.map_append, List.mem_append, List.map_singleton, List.mem_singleton] at h
    exact h
  · exact Or.inl h

theorem addDead_deadKeys_sub {cfg : Nat} {s : GcsNodeManager} {node : GcsNodeInfo} {a : Nat}
    (ha : a ∈ deadKeys (addDeadNodeToCache cfg s node).1) :
    a ∈ deadKeys s ∨ a = node.node_id := by
  simp only [addDeadNodeToCache, deadKeys] at ha ⊢
  by_cases h : cfg ≤ s.dead_nodes.length
  · rw [if_pos h] at ha
    cases hsl : s.sorted_dead_node_list with
    | nil =>
        rw [hsl] at ha
        simp only at ha
        exact mem_emplaceKey_fst ha
    | cons v rest =>
        rw [hsl] at ha
        simp only at ha
        rcases mem_emplaceKey_fst ha with hm | hm
        · rw [map_fst_eraseKey] at hm
          exact Or.inl (List.mem_of_mem_erase hm)
        · exact Or.inr hm
  · rw [if_neg h] at ha
    simp only at ha
    exact mem_emplaceKey_fst ha

theorem addDead_alive_and_map (cfg : Nat) (s : GcsNodeManager) (node : GcsNodeInfo) :
    (addDeadNodeToCache cfg s node).1.alive_nodes = s.alive_nodes ∧
    (addDeadNodeToCache cfg s node).1.node_map = s.node_map := by
  simp only [addDeadNodeToCache]
  by_cases h : cfg ≤ s.dead_nodes.length
  · rw [if_pos h]
    cases hsl : s.sorted_dead_node_list <;> simp
  · rw [if_neg h]
    simp

theorem inv_onNodeFailure {cfg : Nat} {s : GcsNodeManager} {id : Nat} {now : Int} {cb : Bool}
    (hInv : Inv cfg s) (hcfg : 1 ≤ cfg) (hT : timeLE s now) :
    Inv cfg (onNodeFailure cfg s id now cb).1 := by
  cases hl : lookupKey s.alive_nodes id with
  | none =>
      rw [onNodeFailure, removeNode_not_alive hl]
      exact hInv
  | some node =>
      have hid : id = node.node_id := hInv.2.2.1 (id, node) (pair_mem_of_lookupKey hl)
      have hmem : id ∈ aliveKeys s := mem_of_lookupKey_eq_some hl
      obtain ⟨hInv1, hnm⟩ := inv_eraseAlive id hInv
      rw [onNodeFailure, removeNode_alive hl]
      simp only
      apply inv_addDead hInv1 hcfg
      · rw [markDeadOnFailure_node_id, ← hid]
        exact hnm
      · rw [markDeadOnFailure_node_id, ← hid]
        exact hInv.2.2.2.1 id hmem
      · intro p hp
        rw [markDeadOnFailure_end_time]
        exact hT p hp

theorem inv_drainNode {cfg : Nat} {s : GcsNodeManager} {id : Nat} {now : Int}
    (hInv : Inv cfg s) (hcfg : 1 ≤ cfg) (hT : timeLE s now) :
    Inv cfg (drainNode cfg s id now).1 := by
  cases hl : lookupKey s.alive_nodes id with
  | none =>
      rw [drainNode, removeNode_not_alive hl]
      exact hInv
  | some node =>
      have hid : id = node.node_id := hInv.2.2.1 (id, node) (pair_mem_of_lookupKey hl)
      have hmem : id ∈ aliveKeys s := mem_of_lookupKey_eq_some hl
      obtain ⟨hInv1, hnm⟩ := inv_eraseAlive id hInv
      rw [drainNode, removeNode_alive hl]
      simp only
      have hmain : Inv cfg (addDeadNodeToCache cfg
          { s with alive_nodes := eraseKey s.alive_nodes id,
                   node_map := eraseKey s.node_map id }
          { node with state := .DEAD, end_time_ms := now }).1 := by
        apply inv_addDead hInv1 hcfg
        · show node.node_id ∉ (eraseKey s.alive_nodes id).map (·.1)
          rw [← hid]
          exact hnm
        · show node.node_id ∉ deadKeys s
          rw [← hid]
          exact hInv.2.2.2.1 id hmem
        · intro p hp
          exact hT p hp
      split <;> exact hmain

theorem inv_handleRegisterNode {cfg : Nat} {s : GcsNodeManager} {info : GcsNodeInfo} {now : Int}
    (hInv : Inv cfg s) (hcfg : 1 ≤ cfg) (hT : timeLE s now)
    (hD : info.node_id ∉ deadKeys s)
    (hHead : info.is_head_node = true →
      ∀ p ∈ s.alive_nodes, p.2.is_head_node = true → p.1 ≠ info.node_id) :
    Inv cfg (handleRegisterNode cfg s info now).1 := by
  by_cases hh : info.is_head_node = true
  · rw [handleRegisterNode, if_pos hh]
    cases hscan : (s.alive_nodes.filter (fun p => p.2.is_head_node)).map (fun p => p.1) with
    | nil =>
        simp only
        exact inv_addNode hInv hD
    | cons hd tl =>
        cases tl with
        | cons b tl2 =>
            simp only
            exact inv_addNode hInv hD
        | nil =>
            have hdmem : hd ∈ (s.alive_nodes.filter (fun p => p.2.is_head_node)).map
                (fun p => p.1) := by
              rw [hscan]
              exact List.mem_cons_self _ _
            rw [List.mem_map] at hdmem
            obtain ⟨p, hpfil, hphd⟩ := hdmem
            have hpalive : p ∈ s.alive_nodes := List.mem_of_mem_filter hpfil
            have hphead : p.2.is_head_node = true := by
              have := List.of_mem_filter hpfil
              simpa using this
            have hdalive : hd ∈ aliveKeys s := by
              rw [← hphd]
              exact List.mem_map_of_mem (·.1) hpalive
            cases hl : lookupKey s.alive_nodes hd with
            | none =>
                exact absurd hdalive (lookupKey_eq_none.1 hl)
            | some old =>
                have hid : hd = old.node_id :=
                  hInv.2.2.1 (hd, old) (pair_mem_of_lookupKey hl)
                have hold_head : old.is_head_node = true := by
                  have hpc : p.1 = p.2.node_id := hInv.2.2.1 p hpalive
                  -- p and (hd, old) have the same key; by key uniqueness they are equal
                  have hpeq : p = (hd, old) := by
                    have h1 : (hd, old) ∈ s.alive_nodes := pair_mem_of_lookupKey hl
                    have hnodup := hInv.1
                    have : p.1 = hd := hphd
                    -- both p and (hd, old) are entries with key hd in a nodup-key list
                    exact List.inj_on_of_nodup_map
                      (by simpa [aliveKeys] using hnodup) hpalive h1 (by simp [this])
                  rw [hpeq] at hphead
                  exact hphead
                obtain ⟨hInv1, hnm⟩ := inv_eraseAlive hd hInv
                simp only
                rw [removeNode_alive hl]
                simp only
                have hInv2 : Inv cfg (addDeadNodeToCache cfg
                    { s with alive_nodes := eraseKey s.alive_nodes hd,
                             node_map := eraseKey s.node_map hd }
                    (markDeadOnFailure old now)).1 := by
                  apply inv_addDead hInv1 hcfg
                  · rw [markDeadOnFailure_node_id, ← hid]
                    exact hnm
                  · rw [markDeadOnFailure_node_id, ← hid]
                    exact hInv.2.2.2.1 hd hdalive
                  · intro q hq
                    rw [markDeadOnFailure_end_time]
                    exact hT q hq
                apply inv_addNode hInv2
                intro hmem
                rcases addDead_deadKeys_sub hmem with hm | hm
                · exact hD hm
                · rw [markDeadOnFailure_node_id, ← hid] at hm
                  exact hHead hh (hd, old) (pair_mem_of_lookupKey hl) hold_head hm.symm
  · rw [handleRegisterNode, if_neg hh]
    simp only
    exact inv_addNode hInv hD


theorem initLoop_char (nodes : List (Nat × GcsNodeInfo)) :
    ∀ s : GcsNodeManager,
    (∀ p ∈ nodes, p.1 = p.2.node_id) →
    (∀ q ∈ nodes, q.1 ∉ aliveKeys s ∧ q.1 ∉ deadKeys s) →
    (nodes.map (·.1)).Nodup →
    (initLoop s nodes).1.alive_nodes =
      s.alive_nodes ++ nodes.filter (fun p => p.2.state == GcsNodeState.ALIVE) ∧
    (initLoop s nodes).1.dead_nodes =
      s.dead_nodes ++ nodes.filter (fun p => p.2.state == GcsNodeState.DEAD) ∧
    (initLoop s nodes).1.sorted_dead_node_list =
      s.sorted_dead_node_list ++
        (nodes.filter (fun p => p.2.state == GcsNodeState.DEAD)).map
          (fun p => (p.1, p.2.end_time_ms)) := by
  induction nodes with
  | nil =>
      intro s hcons hfresh hnd
      simp [initLoop]
  | cons p rest ih =>
      intro s hcons hfresh hnd
      have hp1 : p.1 = p.2.node_id := hcons p (List.mem_cons_self _ _)
      have hpA : p.1 ∉ aliveKeys s := (hfresh p (List.mem_cons_self _ _)).1
      have hpD : p.1 ∉ deadKeys s := (hfresh p (List.mem_cons_self _ _)).2
      rw [List.map_cons, List.nodup_cons] at hnd
      cases hst : p.2.state with
      | ALIVE =>
          have hlook : lookupKey s.alive_nodes p.2.node_id = none := by
            rw [lookupKey_eq_none, ← hp1]
            exact hpA
          have hstep : initStep s p =
              ({ s with
                  node_map := bimapInsert s.node_map p.2.node_id (nodeAddr p.2),
                  alive_nodes := s.alive_nodes ++ [(p.2.node_id, p.2)] },
               [Effect.nodeAddedListener p.2, Effect.notifyGcsRestart p.2.node_id]) := by
            simp [initStep, hst, addNode, hlook]
          have hfresh1 : ∀ q ∈ rest, q.1 ∉ aliveKeys { s with
                node_map := bimapInsert s.node_map p.2.node_id (nodeAddr p.2),
                alive_nodes := s.alive_nodes ++ [(p.2.node_id, p.2)] } ∧
              q.1 ∉ deadKeys { s with
                node_map := bimapInsert s.node_map p.2.node_id (nodeAddr p.2),
                alive_nodes := s.alive_nodes ++ [(p.2.node_id, p.2)] } := by
            intro q hq
            constructor
            · show q.1 ∉ (s.alive_nodes ++ [(p.2.node_id, p.2)]).map (·.1)
              rw [List.map_append, List.mem_append, List.map_singleton, List.mem_singleton]
              rintro (hm | hm)
              · exact (hfresh q (List.mem_cons_of_mem _ hq)).1 hm
              · rw [← hp1] at hm
                exact hnd.1 (hm ▸ List.mem_map_of_mem (·.1) hq)
            · exact (hfresh q (List.mem_cons_of_mem _ hq)).2
          rw [initLoop]
          simp only [hstep]
          have hres := ih _ (fun q hq => hcons q (List.mem_cons_of_mem _ hq)) hfresh1 hnd.2
          obtain ⟨hA, hB, hC⟩ := hres
          refine ⟨?_, ?_, ?_⟩
          · rw [hA]
            simp only
            rw [List.append_assoc]
            congr 1
            rw [List.filter_cons_of_pos (by simp [hst])]
            simp [← hp1]
          · rw [hB]
            simp only
            rw [List.filter_cons_of_neg (by simp [hst])]
          · rw [hC]
            simp only
            rw [List.filter_cons_of_neg (by simp [hst])]
      | DEAD =>
          have hstep : initStep s p =
              ({ s with
                  dead_nodes := s.dead_nodes ++ [(p.1, p.2)],
                  sorted_dead_node_list :=
                    s.sorted_dead_node_list ++ [(p.1, p.2.end_time_ms)] },
               []) := by
            simp only [initStep, hst]
            rw [emplaceKey_of_not_mem _ hpD]
          have hfresh1 : ∀ q ∈ rest, q.1 ∉ aliveKeys { s with
                dead_nodes := s.dead_nodes ++ [(p.1, p.2)],
                sorted_dead_node_list :=
                  s.sorted_dead_node_list ++ [(p.1, p.2.end_time_ms)] } ∧
              q.1 ∉ deadKeys { s with
                dead_nodes := s.dead_nodes ++ [(p.1, p.2)],
                sorted_dead_node_list :=
                  s.sorted_dead_node_list ++ [(p.1, p.2.end_time_ms)] } := by
            intro q hq
            constructor
            · exact (hfresh q (List.mem_cons_of_mem _ hq)).1
            · show q.1 ∉ (s.dead_nodes ++ [(p.1, p.2)]).map (·.1)
              rw [List.map_append, List.mem_append, List.map_singleton, List.mem_singleton]
              rintro (hm | hm)
              · exact (hfresh q (List.mem_cons_of_mem _ hq)).2 hm
              · exact hnd.1 (hm ▸ List.mem_map_of_mem (·.1) hq)
          rw [initLoop]
          simp only [hstep]
          have hres := ih _ (fun q hq => hcons q (List.mem_cons_of_mem _ hq)) hfresh1 hnd.2
          obtain ⟨hA, hB, hC⟩ := hres
          refine ⟨?_, ?_, ?_⟩
          · rw [hA]
            simp only
            rw [List.filter_cons_of_neg (by simp [hst])]
          · rw [hB]
            simp only
            rw [List.append_assoc]
            congr 1
            rw [List.filter_cons_of_pos (by simp [hst])]
            simp [Prod.mk.eta]
          · rw [hC]
            simp only
            rw [List.append_assoc]
            congr 1
            rw [List.filter_cons_of_pos (by simp [hst])]
            simp


theorem filter_dead_eq_not_alive (nodes : List (Nat × GcsNodeInfo)) :
    nodes.filter (fun p => p.2.state == GcsNodeState.DEAD) =
      nodes.filter (fun p => !(p.2.state == GcsNodeState.ALIVE)) := by
  apply List.filter_congr
  intro p _
  cases hs : p.2.state <;> simp [hs]

theorem initFilters_perm (nodes : List (Nat × GcsNodeInfo)) :
    (nodes.filter (fun p => p.2.state == GcsNodeState.ALIVE) ++
     nodes.filter (fun p => p.2.state == GcsNodeState.DEAD)).Perm nodes := by
  rw [filter_dead_eq_not_alive]
  exact List.filter_append_perm _ nodes

theorem initNodeManager_state {nodes : List (Nat × GcsNodeInfo)}
    (hnd : (nodes.map (·.1)).Nodup)
    (hcons : ∀ p ∈ nodes, p.1 = p.2.node_id) :
    (initNodeManager nodes).1.alive_nodes =
      nodes.filter (fun p => p.2.state == GcsNodeState.ALIVE) ∧
    (initNodeManager nodes).1.dead_nodes =
      nodes.filter (fun p => p.2.state == GcsNodeState.DEAD) ∧
    (initNodeManager nodes).1.sorted_dead_node_list =
      sortDeadList ((nodes.filter (fun p => p.2.state == GcsNodeState.DEAD)).map
        (fun p => (p.1, p.2.end_time_ms))) := by
  obtain ⟨hA, hB, hC⟩ := initLoop_char nodes {} hcons
    (fun q hq => ⟨by simp [aliveKeys], by simp [deadKeys]⟩) hnd
  simp only [initNodeManager]
  refine ⟨?_, ?_, ?_⟩
  · simpa using hA
  · simpa using hB
  · rw [hC]
    simp

theorem inv_initNodeManager {cfg : Nat} {nodes : List (Nat × GcsNodeInfo)}
    (hnd : (nodes.map (·.1)).Nodup)
    (hcons : ∀ p ∈ nodes, p.1 = p.2.node_id)
    (hbound : (nodes.filter (fun p => p.2.state == GcsNodeState.DEAD)).length ≤ cfg) :
    Inv cfg (initNodeManager nodes).1 := by
  obtain ⟨hA, hB, hC⟩ := initNodeManager_state hnd hcons
  have hFA : (nodes.filter (fun p => p.2.state == GcsNodeState.ALIVE)).Sublist nodes :=
    List.filter_sublist _
  have hFD : (nodes.filter (fun p => p.2.state == GcsNodeState.DEAD)).Sublist nodes :=
    List.filter_sublist _
  have hperm : ((nodes.filter (fun p => p.2.state == GcsNodeState.ALIVE)).map (·.1) ++
      (nodes.filter (fun p => p.2.state == GcsNodeState.DEAD)).map (·.1)).Perm
      (nodes.map (·.1)) := by
    rw [← List.map_append]
    exact (initFilters_perm nodes).map (·.1)
  have hnd2 : ((nodes.filter (fun p => p.2.state == GcsNodeState.ALIVE)).map (·.1) ++
      (nodes.filter (fun p => p.2.state == GcsNodeState.DEAD)).map (·.1)).Nodup :=
    hperm.nodup_iff.2 hnd
  rw [List.nodup_append] at hnd2
  simp only [Inv, ClaimInvariant]
  refine ⟨?_, ?_, ?_, ?_, ?_, ?_, ?_⟩
  · show ((initNodeManager nodes).1.alive_nodes.map (·.1)).Nodup
    rw [hA]
    exact hnd2.1
  · show ((initNodeManager nodes).1.dead_nodes.map (·.1)).Nodup
    rw [hB]
    exact hnd2.2.1
  · intro p hp
    rw [hA] at hp
    exact hcons p (List.mem_of_mem_filter hp)
  · intro a ha
    show a ∉ (initNodeManager nodes).1.dead_nodes.map (·.1)
    rw [hB]
    have ha' : a ∈ (nodes.filter (fun p => p.2.state == GcsNodeState.ALIVE)).map (·.1) := by
      simpa [aliveKeys, hA] using ha
    exact hnd2.2.2 ha'
  · show (initNodeManager nodes).1.dead_nodes.length ≤ cfg
    rw [hB]
    exact hbound
  · rw [hC]
    exact sortDeadList_sorted _
  · rw [hC]
    show ((sortDeadList _).map (·.1)).Perm ((initNodeManager nodes).1.dead_nodes.map (·.1))
    rw [hB]
    refine ((sortDeadList_perm _).map (·.1)).trans ?_
    rw [List.map_map]
    exact List.Perm.refl _


/-! ### Effect discriminators and concrete fixtures used in scenarios -/

/-- True exactly for node-info channel publishes. -/
def isNodeInfoPublish : Effect → Bool
  | .publishNodeInfo _ _ => true
  | _ => false

/-- True exactly for durable `NodeTable` deletions. -/
def isTableDelete : Effect → Bool
  | .tableDelete _ => true
  | _ => false

/-- True exactly for `NotifyGCSRestart` raylet RPCs. -/
def isNotifyRestart : Effect → Bool
  | .notifyGcsRestart _ => true
  | _ => false

/-- The node of the preemption-query scenario: registered at
"10.0.0.1:9000" with death-info pre-set to (AUTOSCALER_DRAIN, PREEMPTION)
by the upstream drain-intent populator. -/
def preemptedNodeRecord : GcsNodeInfo :=
  { node_id := 1, node_manager_address := "10.0.0.1", node_manager_port := 9000,
    death_info := { reason := .AUTOSCALER_DRAIN,
                    drain_reason := .DRAIN_NODE_REASON_PREEMPTION } }

/-- A concrete head-node record. -/
def headNodeRecord : GcsNodeInfo :=
  { node_id := 1, is_head_node := true }

/-- A live node pre-stamped with AUTOSCALER_DRAIN drain intent, as the
upstream populator leaves it before `DrainNode` runs. -/
def drainReadyNode (i : Nat) : GcsNodeInfo :=
  { node_id := i, node_manager_address := "n", node_manager_port := i,
    death_info := { reason := .AUTOSCALER_DRAIN, drain_reason := .DRAIN_NODE_REASON_IDLE } }

/-- Start state of the eviction scenario: three live drain-ready nodes. -/
def drainScenarioStart : GcsNodeManager :=
  { alive_nodes := [(1, drainReadyNode 1), (2, drainReadyNode 2), (3, drainReadyNode 3)],
    node_map := [(1, "n:1"), (2, "n:2"), (3, "n:3")] }

/-- The eviction scenario with `max_dead_cached = 2`: drain node 1 at
t=100, node 2 at t=200, node 3 at t=300; final state and combined trace. -/
def drainScenario : GcsNodeManager × List Effect :=
  let d1 := drainNode 2 drainScenarioStart 1 100
  let d2 := drainNode 2 d1.1 2 200
  let d3 := drainNode 2 d2.1 3 300
  (d3.1, d1.2 ++ d2.2 ++ d3.2)

/-- The durable snapshot of the restart-recovery scenario. -/
def restartSnapshot : List (Nat × GcsNodeInfo) :=
  [(1, { node_id := 1, node_manager_address := "a", node_manager_port := 1 }),
   (2, { node_id := 2, state := .DEAD, end_time_ms := 50 }),
   (3, { node_id := 3, state := .DEAD, end_time_ms := 10 })]

/-- Lookup of the freshly cached dead node after `AddDeadNodeToCache`. -/
theorem addDead_lookup {cfg : Nat} {s : GcsNodeManager} {node : GcsNodeInfo}
    (hD : node.node_id ∉ deadKeys s) :
    lookupKey (addDeadNodeToCache cfg s node).1.dead_nodes node.node_id = some node := by
  simp only [addDeadNodeToCache]
  by_cases h : cfg ≤ s.dead_nodes.length
  · rw [if_pos h]
    cases hsl : s.sorted_dead_node_list with
    | nil =>
        simp only
        rw [emplaceKey_of_not_mem _ (by simpa [deadKeys] using hD)]
        exact lookupKey_append_last (by simpa [deadKeys] using hD)
    | cons v rest =>
        simp only
        have hD' : node.node_id ∉ (eraseKey s.dead_nodes v.1).map (·.1) := by
          rw [map_fst_eraseKey]
          intro hm
          exact hD (List.mem_of_mem_erase hm)
        rw [emplaceKey_of_not_mem _ hD']
        exact lookupKey_append_last hD'
  · rw [if_neg h]
    simp only
    rw [emplaceKey_of_not_mem _ (by simpa [deadKeys] using hD)]
    exact lookupKey_append_last (by simpa [deadKeys] using hD)

/-- C7: for a node id that is not in the Live-Set, `DrainNode` and
`OnNodeFailure` are silent no-ops: the state is unchanged and no durable
write, publish, raylet RPC or listener call is made; `OnNodeFailure` still
invokes its completion callback with OK, and the `DrainNode` RPC reply
still carries one `drain_node_status` entry with that node id and overall
status OK. -/
theorem claim_notlive_noop (cfg : Nat) (s : GcsNodeManager) (id : Nat) (now : Int)
    (h : lookupKey s.alive_nodes id = none) :
    drainNode cfg s id now = (s, []) ∧
    onNodeFailure cfg s id now true = (s, [.statusCallbackOK]) ∧
    onNodeFailure cfg s id now false = (s, []) ∧
    handleDrainNode cfg s [id] now = (s, [], [id], true) := by
  have hd : drainNode cfg s id now = (s, []) := by
    rw [drainNode, removeNode_not_alive h]
  refine ⟨hd, ?_, ?_, ?_⟩
  · rw [onNodeFailure, removeNode_not_alive h]
    rfl
  · rw [onNodeFailure, removeNode_not_alive h]
    rfl
  · rw [handleDrainNode]
    simp [hd, handleDrainNode]

/-- C7 witness: the no-op theorem applied to the empty manager and node 9. -/
theorem claim_notlive_noop_witness :
    drainNode 4 {} 9 0 = ({}, []) ∧
    onNodeFailure 4 {} 9 0 true = ({}, [.statusCallbackOK]) ∧
    onNodeFailure 4 {} 9 0 false = ({}, []) ∧
    handleDrainNode 4 {} [9] 0 = ({}, [], [9], true) :=
  claim_notlive_noop 4 {} 9 0 (by decide)

/-- C8: `OnNodeFailure` on a live node produces a dead record with state
DEAD and end time stamped to the current clock; its death reason becomes
UNEXPECTED_TERMINATION when it was UNSPECIFIED and is left unchanged
otherwise, and the drain reason is never touched. -/
theorem claim_failure_death_record (cfg : Nat) (s : GcsNodeManager) (node : GcsNodeInfo)
    (now : Int) (cb : Bool)
    (hl : lookupKey s.alive_nodes node.node_id = some node)
    (hD : node.node_id ∉ deadKeys s) :
    lookupKey (onNodeFailure cfg s node.node_id now cb).1.dead_nodes node.node_id =
      some (markDeadOnFailure node now) ∧
    (markDeadOnFailure node now).state = .DEAD ∧
    (markDeadOnFailure node now).end_time_ms = now ∧
    (markDeadOnFailure node now).death_info.reason =
      (if node.death_info.reason = .UNSPECIFIED then .UNEXPECTED_TERMINATION
       else node.death_info.reason) ∧
    (markDeadOnFailure node now).death_info.drain_reason = node.death_info.drain_reason := by
  refine ⟨?_, markDeadOnFailure_state node now, markDeadOnFailure_end_time node now,
    markDeadOnFailure_reason node now, markDeadOnFailure_drain_reason node now⟩
  rw [onNodeFailure, removeNode_alive hl]
  simp only
  have hD1 : (markDeadOnFailure node now).node_id ∉ deadKeys
      { s with alive_nodes := eraseKey s.alive_nodes node.node_id,
               node_map := eraseKey s.node_map node.node_id } := by
    rw [markDeadOnFailure_node_id]
    exact hD
  have h2 := @addDead_lookup cfg _ _ hD1
  rwa [markDeadOnFailure_node_id] at h2

/-- A one-node manager used by several witnesses. -/
def singleNode3 : GcsNodeManager :=
  { alive_nodes := [(3, { node_id := 3 })], node_map := [(3, ":0")] }

/-- The record living in `singleNode3`. -/
def node3 : GcsNodeInfo := { node_id := 3 }

/-- C8 witness: the death-record theorem applied to a concrete
previously-live node with UNSPECIFIED death reason. -/
theorem claim_failure_death_record_witness :
    lookupKey (onNodeFailure 4 singleNode3 3 7 false).1.dead_nodes 3 =
      some (markDeadOnFailure node3 7) ∧
    (markDeadOnFailure node3 7).state = .DEAD ∧
    (markDeadOnFailure node3 7).end_time_ms = 7 ∧
    (markDeadOnFailure node3 7).death_info.reason =
      (if node3.death_info.reason = .UNSPECIFIED then .UNEXPECTED_TERMINATION
       else node3.death_info.reason) ∧
    (markDeadOnFailure node3 7).death_info.drain_reason = node3.death_info.drain_reason :=
  claim_failure_death_record 4 singleNode3 node3 7 false (by decide) (by decide)

/-- C10: re-registering a non-head record whose node id is already live is
a frame no-op on the in-memory state — Live-Set, bimap and listeners are
untouched (no added-listener effect appears) — yet the durable `NodeTable`
put and the full-record node-info publish are still performed again. -/
theorem claim_duplicate_register_frame (cfg : Nat) (s : GcsNodeManager) (info : GcsNodeInfo)
    (now : Int) (v : GcsNodeInfo)
    (hh : info.is_head_node = false)
    (hl : lookupKey s.alive_nodes info.node_id = some v) :
    handleRegisterNode cfg s info now =
      (s, [.tablePut info.node_id info, .publishNodeInfo info.node_id info]) := by
  simp [handleRegisterNode, hh, addNode, hl]

/-- C10 witness: duplicate non-head registration on a singleton manager. -/
theorem claim_duplicate_register_frame_witness :
    handleRegisterNode 4 singleNode3 node3 7 =
      (singleNode3, [.tablePut 3 node3, .publishNodeInfo 3 node3]) :=
  claim_duplicate_register_frame 4 singleNode3 node3 7 node3 (by decide) (by decide)


/-- C1 (evaluating the code at the failing input): register the node of
`preemptedNodeRecord` at "10.0.0.1:9000", apply `OnNodeFailure` to it —
after which its record sits in the Dead-Set with reason AUTOSCALER_DRAIN
and drain reason PREEMPTION — and then `CheckAlive(["10.0.0.1:9000"])`
reports alive=[false] but also preempted=[false] (for every durable store
contents), because `RemoveNode` erased the node-id/address bimap entry and
both `raylet_alive` and `IsNodePreempted` consult that same bimap. -/
theorem claim_preemption_query (storage : List (Nat × GcsNodeInfo)) :
    lookupKey (onNodeFailure 100 (handleRegisterNode 100 {} preemptedNodeRecord 0).1 1 5
        false).1.dead_nodes 1 =
      some { preemptedNodeRecord with state := .DEAD, end_time_ms := 5 } ∧
    handleCheckAlive (onNodeFailure 100 (handleRegisterNode 100 {} preemptedNodeRecord 0).1 1 5
        false).1 storage ["10.0.0.1:9000"] = ([false], [false]) := by
  exact ⟨rfl, rfl⟩

/-- C3 counterexample: registering the head record `headNodeRecord` twice
is not equivalent to registering it once — the second registration
synthesizes `OnNodeFailure` on the node itself, so the final state also
carries a DEAD copy of the node in the Dead-Set. -/
theorem claim_register_idem_cex :
    (handleRegisterNode 100 (handleRegisterNode 100 {} headNodeRecord 0).1
        headNodeRecord 0).1 ≠
      (handleRegisterNode 100 {} headNodeRecord 0).1 := by
  decide

/-- C3 (amended): for every record with `is_head_node = false`,
`RegisterNode` twice in succession leaves the same in-memory state as
registering once — the second call skips the in-memory insertion. -/
theorem claim_register_idem_nonhead (cfg : Nat) (s : GcsNodeManager) (info : GcsNodeInfo)
    (now now' : Int) (hh : info.is_head_node = false) :
    (handleRegisterNode cfg (handleRegisterNode cfg s info now).1 info now').1 =
      (handleRegisterNode cfg s info now).1 := by
  have hstep : ∀ (t : GcsNodeManager) (tm : Int),
      (handleRegisterNode cfg t info tm).1 = (addNode t info).1 := by
    intro t tm
    simp [handleRegisterNode, hh]
  rw [hstep, hstep]
  cases hl : lookupKey s.alive_nodes info.node_id with
  | some v =>
      simp [addNode, hl]
  | none =>
      simp only [addNode, hl]
      have h2 : lookupKey (s.alive_nodes ++ [(info.node_id, info)]) info.node_id = some info :=
        lookupKey_append_last (lookupKey_eq_none.1 hl)
      simp [addNode, h2]

/-- C3 witness: double registration of a concrete non-head record. -/
theorem claim_register_idem_nonhead_witness :
    (handleRegisterNode 4 (handleRegisterNode 4 {} node3 0).1 node3 1).1 =
      (handleRegisterNode 4 {} node3 0).1 :=
  claim_register_idem_nonhead 4 {} node3 0 1 (by decide)


/-- The Dead-Set is untouched by `AddNode`. -/
theorem addNode_dead_nodes (s : GcsNodeManager) (node : GcsNodeInfo) :
    (addNode s node).1.dead_nodes = s.dead_nodes := by
  cases hl : lookupKey s.alive_nodes node.node_id <;> simp [addNode, hl]

/-- C2 counterexample: starting from a manager whose only live node is the
head record `headNodeRecord`, registering the very same head record again
does not skip the displacement — afterwards the Dead-Set holds the record
transitioned to DEAD, and the node-removed error publish of the
synthesized `OnNodeFailure` appears in the trace. -/
theorem claim_head_skip_cex :
    lookupKey (handleRegisterNode 100 (handleRegisterNode 100 {} headNodeRecord 0).1
        headNodeRecord 5).1.dead_nodes 1 =
      some { headNodeRecord with
        state := .DEAD
        end_time_ms := 5
        death_info := { reason := .UNEXPECTED_TERMINATION } } ∧
    Effect.publishError 1 ∈
      (handleRegisterNode 100 (handleRegisterNode 100 {} headNodeRecord 0).1
        headNodeRecord 5).2 := by
  decide

/-- C2 (amended): when the Live-Set's unique head node carries the same
node id as an incoming head registration, the displacement step is NOT
skipped: `OnNodeFailure` is synthesized on the pre-existing head (its
node-removed error is published), the record is transitioned to DEAD and
entered into the Dead-Set, and the registration then re-inserts the new
record into the Live-Set. -/
theorem claim_head_same_id_displaced (cfg : Nat) (s : GcsNodeManager)
    (info old : GcsNodeInfo) (now : Int)
    (hInv : Inv cfg s) (hcfg : 1 ≤ cfg)
    (hh : info.is_head_node = true)
    (hscan : (s.alive_nodes.filter (fun p => p.2.is_head_node)).map (fun p => p.1) =
      [info.node_id])
    (hold : lookupKey s.alive_nodes info.node_id = some old) :
    lookupKey (handleRegisterNode cfg s info now).1.dead_nodes info.node_id =
      some (markDeadOnFailure old now) ∧
    (markDeadOnFailure old now).state = .DEAD ∧
    lookupKey (handleRegisterNode cfg s info now).1.alive_nodes info.node_id = some info ∧
    Effect.publishError info.node_id ∈ (handleRegisterNode cfg s info now).2 := by
  have hid : info.node_id = old.node_id :=
    hInv.2.2.1 (info.node_id, old) (pair_mem_of_lookupKey hold)
  have hmem : info.node_id ∈ aliveKeys s := mem_of_lookupKey_eq_some hold
  have hD : info.node_id ∉ deadKeys s := hInv.2.2.2.1 info.node_id hmem
  obtain ⟨hInv1, hnm⟩ := inv_eraseAlive info.node_id hInv
  rw [handleRegisterNode, if_pos hh, hscan]
  simp only
  rw [removeNode_alive hold]
  simp only
  have hD1 : (markDeadOnFailure old now).node_id ∉ deadKeys
      { s with alive_nodes := eraseKey s.alive_nodes info.node_id,
               node_map := eraseKey s.node_map info.node_id } := by
    rw [markDeadOnFailure_node_id, ← hid]
    exact hD
  have hdead := @addDead_lookup cfg _ _ hD1
  rw [markDeadOnFailure_node_id, ← hid] at hdead
  obtain ⟨haliveEq, _⟩ := addDead_alive_and_map cfg
    { s with alive_nodes := eraseKey s.alive_nodes info.node_id,
             node_map := eraseKey s.node_map info.node_id } (markDeadOnFailure old now)
  have hlook2 : lookupKey (addDeadNodeToCache cfg
      { s with alive_nodes := eraseKey s.alive_nodes info.node_id,
               node_map := eraseKey s.node_map info.node_id }
      (markDeadOnFailure old now)).1.alive_nodes info.node_id = none := by
    rw [haliveEq]
    exact lookupKey_eq_none.2 hnm
  refine ⟨?_, markDeadOnFailure_state old now, ?_, ?_⟩
  · rw [addNode_dead_nodes]
    exact hdead
  · simp only [addNode, hlook2]
    refine lookupKey_append_last ?_
    rw [haliveEq]
    exact hnm
  · rw [List.mem_append, List.mem_append, List.mem_append]
    exact Or.inl (Or.inl (Or.inl (List.mem_cons_self _ _)))

/-- The manager whose only live node is the concrete head record. -/
def headManager : GcsNodeManager :=
  { alive_nodes := [(1, headNodeRecord)], node_map := [(1, ":0")] }

/-- C2 witness: the amended displacement theorem applied to the concrete
head manager re-registering its own head record. -/
theorem claim_head_same_id_displaced_witness :
    lookupKey (handleRegisterNode 4 headManager headNodeRecord 5).1.dead_nodes 1 =
      some (markDeadOnFailure headNodeRecord 5) ∧
    (markDeadOnFailure headNodeRecord 5).state = .DEAD ∧
    lookupKey (handleRegisterNode 4 headManager headNodeRecord 5).1.alive_nodes 1 =
      some headNodeRecord ∧
    Effect.publishError 1 ∈ (handleRegisterNode 4 headManager headNodeRecord 5).2 :=
  claim_head_same_id_displaced 4 headManager headNodeRecord headNodeRecord 5
    (by decide) (by decide) (by decide) (by decide) (by decide)


/-- C6: when a dead node is inserted while the Dead-Set is at or above
capacity, exactly the front entry of the order list — which carries the
smallest end time — is evicted: its durable row is deleted fire-and-forget
and it is erased from the Dead-Set and the order list before the new entry
is appended.  With `max_dead_cached = 2`, draining nodes 1, 2, 3 at times
100, 200, 300 leaves Dead-Set keys exactly [2, 3] and the trace contains
exactly one durable deletion, of node 1. -/
theorem claim_eviction (cfg : Nat) (s : GcsNodeManager) (node : GcsNodeInfo) :
    (Inv cfg s → 1 ≤ cfg → cfg ≤ s.dead_nodes.length → node.node_id ∉ deadKeys s →
      ∃ v rest, s.sorted_dead_node_list = v :: rest ∧
        (∀ p ∈ s.sorted_dead_node_list, v.2 ≤ p.2) ∧
        addDeadNodeToCache cfg s node =
          ({ s with
              dead_nodes := eraseKey s.dead_nodes v.1 ++ [(node.node_id, node)]
              sorted_dead_node_list := rest ++ [(node.node_id, node.end_time_ms)] },
           [Effect.tableDelete v.1])) ∧
    deadKeys drainScenario.1 = [2, 3] ∧
    drainScenario.2.filter isTableDelete = [Effect.tableDelete 1] := by
  refine ⟨?_, by decide, by decide⟩
  intro hInv hcfg hlen hD
  obtain ⟨v, rest, hsl⟩ :=
    sorted_list_cons_of_ne_nil hInv.2.2.2.2.2.2 (by omega)
  refine ⟨v, rest, hsl, ?_, addDead_evict hlen hsl hD⟩
  intro p hp
  have hS := hInv.2.2.2.2.2.1
  rw [hsl] at hS hp
  rw [List.map_cons, List.Sorted, List.pairwise_cons] at hS
  rcases List.mem_cons.1 hp with h | h
  · rw [h]
  · exact hS.1 p.2 (List.mem_map_of_mem (·.2) h)

/-- State with one cached dead node, used in the C6 witness. -/
def evictWitState : GcsNodeManager :=
  { dead_nodes := [(5, { node_id := 5, state := .DEAD, end_time_ms := 50 })],
    sorted_dead_node_list := [(5, 50)] }

/-- The dead record added on top of `evictWitState` in the C6 witness. -/
def node6 : GcsNodeInfo := { node_id := 6, state := .DEAD, end_time_ms := 60 }

/-- C6 witness: the eviction theorem applied with capacity 1 to a manager
already holding one dead node. -/
theorem claim_eviction_witness :
    (∃ v rest, evictWitState.sorted_dead_node_list = v :: rest ∧
      (∀ p ∈ evictWitState.sorted_dead_node_list, v.2 ≤ p.2) ∧
      addDeadNodeToCache 1 evictWitState node6 =
        ({ evictWitState with
            dead_nodes := eraseKey evictWitState.dead_nodes v.1 ++ [(node6.node_id, node6)]
            sorted_dead_node_list := rest ++ [(node6.node_id, node6.end_time_ms)] },
         [Effect.tableDelete v.1])) ∧
    deadKeys drainScenario.1 = [2, 3] ∧
    drainScenario.2.filter isTableDelete = [Effect.tableDelete 1] :=
  ⟨(claim_eviction 1 evictWitState node6).1 (by decide) (by decide) (by decide) (by decide),
   (claim_eviction 1 evictWitState node6).2⟩

/-- C9: initializing from a durable snapshot (with consistent, unique
node ids) yields a state whose `GetAllNodeInfo` reply is, as a multiset,
exactly the snapshot's records; on the concrete snapshot
{1:ALIVE, 2:DEAD(end=50), 3:DEAD(end=10)} this gives LiveSet = {1},
Dead-Set = {2, 3}, order list [(3,10), (2,50)], and exactly one
`NotifyGCSRestart`, sent to node 1's raylet. -/
theorem claim_init_roundtrip (nodes : List (Nat × GcsNodeInfo)) :
    ((nodes.map (·.1)).Nodup → (∀ p ∈ nodes, p.1 = p.2.node_id) →
      (getAllNodeInfo (initNodeManager nodes).1).Perm (nodes.map (·.2))) ∧
    aliveKeys (initNodeManager restartSnapshot).1 = [1] ∧
    deadKeys (initNodeManager restartSnapshot).1 = [2, 3] ∧
    (initNodeManager restartSnapshot).1.sorted_dead_node_list = [(3, 10), (2, 50)] ∧
    (initNodeManager restartSnapshot).2.filter isNotifyRestart = [.notifyGcsRestart 1] := by
  refine ⟨?_, by decide, by decide, by decide, by decide⟩
  intro hnd hcons
  obtain ⟨hA, hB, _⟩ := initNodeManager_state hnd hcons
  show ((initNodeManager nodes).1.alive_nodes.map (·.2) ++
      (initNodeManager nodes).1.dead_nodes.map (·.2)).Perm (nodes.map (·.2))
  rw [hA, hB, ← List.map_append]
  exact (initFilters_perm nodes).map (·.2)

/-- C9 witness: the round-trip theorem applied to the concrete snapshot. -/
theorem claim_init_roundtrip_witness :
    (getAllNodeInfo (initNodeManager restartSnapshot).1).Perm (restartSnapshot.map (·.2)) :=
  (claim_init_roundtrip restartSnapshot).1 (by decide) (by decide)

/-- C5: the specification's three invariants — Live/Dead disjointness, the
dead-cache bound, and a sorted order list whose ids match the Dead-Set —
hold after each operation, given the strengthened invariant before it, a
non-decreasing wall clock, a positive capacity, cluster-wide-unique node
ids at registration (the registered id is not cached dead and differs from
a displaced head's id), and an `Initialize` snapshot with at most
`max_dead_cached` dead rows. -/
theorem claim_invariants_hold (cfg : Nat) (s : GcsNodeManager) (info : GcsNodeInfo)
    (id : Nat) (now : Int) (cb : Bool) (nodes : List (Nat × GcsNodeInfo))
    (hcfg : 1 ≤ cfg) :
    (Inv cfg s → timeLE s now → info.node_id ∉ deadKeys s →
      (info.is_head_node = true →
        ∀ p ∈ s.alive_nodes, p.2.is_head_node = true → p.1 ≠ info.node_id) →
      ClaimInvariant cfg (handleRegisterNode cfg s info now).1) ∧
    (Inv cfg s → timeLE s now → ClaimInvariant cfg (drainNode cfg s id now).1) ∧
    (Inv cfg s → timeLE s now → ClaimInvariant cfg (onNodeFailure cfg s id now cb).1) ∧
    ((nodes.map (·.1)).Nodup → (∀ p ∈ nodes, p.1 = p.2.node_id) →
      (nodes.filter (fun p => p.2.state == GcsNodeState.DEAD)).length ≤ cfg →
      ClaimInvariant cfg (initNodeManager nodes).1) :=
  ⟨fun h1 h2 h3 h4 => (inv_handleRegisterNode h1 hcfg h2 h3 h4).2.2.2,
   fun h1 h2 => (inv_drainNode h1 hcfg h2).2.2.2,
   fun h1 h2 => (inv_onNodeFailure h1 hcfg h2).2.2.2,
   fun h1 h2 h3 => (inv_initNodeManager h1 h2 h3).2.2.2⟩

/-- C5 counterexample: as stated — without the snapshot bound — the claim
fails: `Initialize` performs no capacity enforcement, so a snapshot with
two dead rows under `max_dead_cached = 1` leaves `|DeadSet| = 2 > 1`. -/
theorem claim_invariants_cex :
    ¬ ClaimInvariant 1 (initNodeManager
      [(1, { node_id := 1, state := .DEAD, end_time_ms := 10 }),
       (2, { node_id := 2, state := .DEAD, end_time_ms := 20 })]).1 := by
  decide

/-- C5 witness: all four conjuncts applied at concrete inputs. -/
theorem claim_invariants_hold_witness :
    ClaimInvariant 2 (handleRegisterNode 2 {} node3 0).1 ∧
    ClaimInvariant 2 (drainNode 2 {} 7 0).1 ∧
    ClaimInvariant 2 (onNodeFailure 2 {} 7 0 true).1 ∧
    ClaimInvariant 2 (initNodeManager restartSnapshot).1 := by
  have h := claim_invariants_hold 2 {} node3 7 0 true restartSnapshot (by decide)
  exact ⟨h.1 (by decide) (by decide) (by decide) (by decide),
         h.2.1 (by decide) (by decide),
         h.2.2.1 (by decide) (by decide),
         h.2.2.2 (by decide) (by decide) (by decide)⟩


/-- C4: starting from a manager whose only live node is head node n1,
registering a distinct head node n2 (an ALIVE record, with n1's death
reason still UNSPECIFIED) leaves exactly n2 live; n1 sits in the Dead-Set
with state DEAD and death reason UNEXPECTED_TERMINATION; and the node-info
channel sees exactly two publishes, (n1, DEAD delta) before (n2, ALIVE
full record). -/
theorem claim_head_replacement (cfg : Nat) (m : List (Nat × String)) (n1 n2 : GcsNodeInfo)
    (now : Int) (hcfg : 1 ≤ cfg) (h1 : n1.is_head_node = true) (h2 : n2.is_head_node = true)
    (hne : n2.node_id ≠ n1.node_id) (hr : n1.death_info.reason = .UNSPECIFIED)
    (hst : n2.state = .ALIVE) :
    aliveKeys (handleRegisterNode cfg
      { alive_nodes := [(n1.node_id, n1)], node_map := m } n2 now).1 = [n2.node_id] ∧
    lookupKey (handleRegisterNode cfg
      { alive_nodes := [(n1.node_id, n1)], node_map := m } n2 now).1.dead_nodes n1.node_id =
      some (markDeadOnFailure n1 now) ∧
    (markDeadOnFailure n1 now).state = .DEAD ∧
    (markDeadOnFailure n1 now).death_info.reason = .UNEXPECTED_TERMINATION ∧
    (handleRegisterNode cfg
        { alive_nodes := [(n1.node_id, n1)], node_map := m } n2 now).2.filter
      isNodeInfoPublish =
      [.publishNodeInfo n1.node_id (deadNodeInfoDelta (markDeadOnFailure n1 now)),
       .publishNodeInfo n2.node_id n2] ∧
    (deadNodeInfoDelta (markDeadOnFailure n1 now)).state = .DEAD ∧
    n2.state = .ALIVE := by
  have hc0 : ¬ cfg ≤ 0 := by omega
  have hreason : (markDeadOnFailure n1 now).death_info.reason = .UNEXPECTED_TERMINATION := by
    rw [markDeadOnFailure_reason, if_pos hr]
  have hdelta : (deadNodeInfoDelta (markDeadOnFailure n1 now)).state = .DEAD := by
    rw [deadNodeInfoDelta, markDeadOnFailure_state]
  refine ⟨?_, ?_, markDeadOnFailure_state n1 now, hreason, ?_, hdelta, hst⟩ <;>
    simp [handleRegisterNode, h1, h2, removeNode, lookupKey, eraseKey, addNode,
      addDeadNodeToCache, hc0, emplaceKey, aliveKeys, markDeadOnFailure_node_id,
      isNodeInfoPublish, Ne.symm hne]


/-- The second head record, displacing `headNodeRecord` in the C4 witness. -/
def headNodeRecord2 : GcsNodeInfo := { node_id := 2, is_head_node := true }

/-- C4 witness: the head-replacement theorem applied to the two concrete
head records. -/
theorem claim_head_replacement_witness :
    aliveKeys (handleRegisterNode 4
      { alive_nodes := [(1, headNodeRecord)], node_map := [(1, ":0")] }
      headNodeRecord2 5).1 = [2] ∧
    lookupKey (handleRegisterNode 4
      { alive_nodes := [(1, headNodeRecord)], node_map := [(1, ":0")] }
      headNodeRecord2 5).1.dead_nodes 1 =
      some (markDeadOnFailure headNodeRecord 5) ∧
    (markDeadOnFailure headNodeRecord 5).state = .DEAD ∧
    (markDeadOnFailure headNodeRecord 5).death_info.reason = .UNEXPECTED_TERMINATION ∧
    (handleRegisterNode 4
        { alive_nodes := [(1, headNodeRecord)], node_map := [(1, ":0")] }
        headNodeRecord2 5).2.filter isNodeInfoPublish =
      [.publishNodeInfo 1 (deadNodeInfoDelta (markDeadOnFailure headNodeRecord 5)),
       .publishNodeInfo 2 headNodeRecord2] ∧
    (deadNodeInfoDelta (markDeadOnFailure headNodeRecord 5)).state = .DEAD ∧
    headNodeRecord2.state = .ALIVE :=
  claim_head_replacement 4 [(1, ":0")] headNodeRecord headNodeRecord2 5
    (by decide) (by decide) (by decide) (by decide) (by decide) (by decide)

end GcsVerify
